import Mathlib

/-!
# API gateway: request pipeline of `internal/app/apiserver`

A shallow embedding of `server.go`.  A handler is a function from the request
to a program over the operations a Go handler can perform on its
`http.ResponseWriter` and on the process (logger, clock, identifier source,
outbound transport).  Programs are run against a `World` that records every
call in order, so that statements about "what was written, and when" are
statements about lists.  `Prog.run` records the calls a handler makes;
`Prog.exec` also follows the one case in which the writer of `net/http` does
not return from a call, the panic of `WriteHeader` on a code outside
100..999.

Code of other packages is either modelled directly where it is small
(`http.Header`, `context`, `http.NotFound`, and of `gorilla/mux` v1.8.0 the
path cleaning, the matching loops and `ServeHTTP`) or taken as a field of
`Lib` (`url.Parse`, the JSON text of a string map, the reverse proxy, the
CORS middleware).  The type `responseWriter`, which `server.go` uses and
does not declare, is modelled from the specification.
-/

namespace ApiGateway

/-! ## `net/http` headers -/

/-- The byte test of `textproto.validHeaderFieldByte`: the token characters of RFC 7230. -/
def validHeaderFieldByte (c : Char) : Bool :=
  c.isAlphanum || "!#$%&'*+-.^_|~".data.contains c || c == Char.ofNat 96

/-- The case-fixing loop of `textproto.canonicalMIMEHeaderKey`: a letter is
upper-cased at the start and after a hyphen, lower-cased elsewhere. -/
def canonLoop : Bool → List Char → List Char
  | _, [] => []
  | upper, c :: cs =>
    let c1 := if upper && c.isLower then c.toUpper
              else if !upper && c.isUpper then c.toLower
              else c
    c1 :: canonLoop (c1 == '-') cs

/-- Go `textproto.CanonicalMIMEHeaderKey`: a key holding a byte that is not a
token character is returned unchanged. -/
def CanonicalMIMEHeaderKey (s : String) : String :=
  if s.data.all validHeaderFieldByte then String.mk (canonLoop true s.data) else s

/-- Go `http.Header`, a map from keys to value lists, as an association list. -/
abbrev Header := List (String × List String)

/-- Go `Header.Get`: the first value stored under the canonical form of `key`, or `""`. -/
def Header.Get (h : Header) (key : String) : String :=
  match h.lookup (CanonicalMIMEHeaderKey key) with
  | some (v :: _) => v
  | _ => ""

/-- Go `Header.Set`: replaces whatever is stored under the canonical form of `key`. -/
def Header.Set (h : Header) (key value : String) : Header :=
  (CanonicalMIMEHeaderKey key, [value]) ::
    h.filter (fun kv => kv.1 != CanonicalMIMEHeaderKey key)

/-! ## `context` -/

/-- A context key: Go compares keys by dynamic type and value. -/
structure CtxKey where
  typ : String
  val : Int
  deriving DecidableEq, Repr

/-- The value stored under a context key (an `interface{}`). -/
inductive CtxVal where
  | str (s : String)
  | vars (m : List (String × String))
  | route (template : String)
  deriving DecidableEq, Repr

/-- A context is the chain of `WithValue` frames, innermost first. -/
abbrev Context := List (CtxKey × CtxVal)

/-- Go `context.WithValue`. -/
def Context.WithValue (ctx : Context) (k : CtxKey) (v : CtxVal) : Context :=
  (k, v) :: ctx

/-- Go `Context.Value`: the innermost frame with that key, `nil` when there is none. -/
def Context.Value (ctx : Context) (k : CtxKey) : Option CtxVal :=
  ctx.lookup k

/-- The constant `ctxKeyRequestID ctxKey = iota` of `server.go`. -/
def ctxKeyRequestID : CtxKey := ⟨"apiserver.ctxKey", 0⟩

/-! ## Requests -/

/-- The fields of `*http.Request` the gateway reads or forwards. -/
structure Request where
  Method : String
  Path : String
  RequestURI : String
  RemoteAddr : String
  Header : Header
  Body : String
  ctx : Context
  deriving DecidableEq, Repr

/-- Go `Request.WithContext`: a copy of the request with its context replaced. -/
def Request.WithContext (r : Request) (ctx : Context) : Request :=
  { r with ctx := ctx }

/-- Go `Request.Context`. -/
def Request.Context (r : Request) : Context := r.ctx

/-! ## Logging -/

/-- The `logrus` levels the server uses. -/
inductive Level where
  | ErrorLevel
  | WarnLevel
  | InfoLevel
  deriving DecidableEq, Repr

/-- An argument of a format call; `statusText c` stands for `http.StatusText(c)`
and `elapsed a b` for `b.Sub(a)`, both left unevaluated. -/
inductive Arg where
  | str (s : String)
  | int (n : Int)
  | statusText (code : Int)
  | elapsed (start stop : Nat)
  deriving DecidableEq, Repr

/-- One call on a `logrus.Entry`: the entry's fields, the level, the format and its arguments. -/
structure LogEntry where
  remote_addr : String
  request_id : Option CtxVal
  level : Level
  format : String
  args : List Arg
  deriving DecidableEq, Repr

/-! ## Upstream transport -/

/-- A parsed upstream address (`*url.URL`), kept as the string it was parsed from. -/
structure URL where
  raw : String
  deriving DecidableEq, Repr

/-- What an upstream answered. -/
structure Response where
  StatusCode : Int
  Header : Header
  Body : String
  deriving DecidableEq, Repr

/-! ## Programs over the response writer and the process -/

/-- A call that reached the connection's `http.ResponseWriter`. -/
inductive Call where
  | WriteHeader (code : Int)
  | Write (body : String)
  deriving DecidableEq, Repr

/-- The operations of a handler, in continuation form. -/
inductive Prog (α : Type) : Type where
  | ret (a : α)
  | headerGet (key : String) (k : String → Prog α)
  | headerSet (key value : String) (k : Prog α)
  | writeHeader (code : Int) (k : Prog α)
  | write (body : String) (k : Prog α)
  | logf (e : LogEntry) (k : Prog α)
  | now (k : Nat → Prog α)
  | newUUID (k : String → Prog α)
  | roundTrip (target : URL) (r : Request) (k : Option Response → Prog α)

/-- Sequencing of programs. -/
def Prog.bind {α β : Type} : Prog α → (α → Prog β) → Prog β
  | .ret a, f => f a
  | .headerGet key k, f => .headerGet key (fun v => (k v).bind f)
  | .headerSet key value k, f => .headerSet key value (k.bind f)
  | .writeHeader code k, f => .writeHeader code (k.bind f)
  | .write body k, f => .write body (k.bind f)
  | .logf e k, f => .logf e (k.bind f)
  | .now k, f => .now (fun t => (k t).bind f)
  | .newUUID k, f => .newUUID (fun id => (k id).bind f)
  | .roundTrip target r k, f => .roundTrip target r (fun res => (k res).bind f)

instance : Monad Prog where
  pure := Prog.ret
  bind := Prog.bind

/-- What a run observes and what it draws from: the response header map, the
calls made on the connection's writer, the log, the outbound calls, and the
sources of time, identifiers and upstream answers. -/
structure World where
  header : Header
  calls : List Call
  log : List LogEntry
  outbound : List (URL × Request)
  clock : Nat → Nat
  ticks : Nat
  uuid : Nat → String
  drawn : Nat
  upstream : URL → Request → Option Response

/-- Runs a program, threading the world through its operations. -/
def Prog.run {α : Type} : Prog α → World → α × World
  | .ret a, w => (a, w)
  | .headerGet key k, w => (k (w.header.Get key)).run w
  | .headerSet key value k, w => k.run { w with header := w.header.Set key value }
  | .writeHeader code k, w => k.run { w with calls := w.calls ++ [Call.WriteHeader code] }
  | .write body k, w => k.run { w with calls := w.calls ++ [Call.Write body] }
  | .logf e k, w => k.run { w with log := w.log ++ [e] }
  | .now k, w => (k (w.clock w.ticks)).run { w with ticks := w.ticks + 1 }
  | .newUUID k, w => (k (w.uuid w.drawn)).run { w with drawn := w.drawn + 1 }
  | .roundTrip target r k, w =>
    (k (w.upstream target r)).run { w with outbound := w.outbound ++ [(target, r)] }

/-- A handler (`http.Handler`): the program it performs on a request. -/
abbrev Handler := Request → Prog Unit

/-- A middleware (`func(http.Handler) http.Handler`). -/
abbrev Middleware := Handler → Handler

namespace Prog

/-- Go `w.Header().Get(key)`. -/
def HeaderGet (key : String) : Prog String := .headerGet key .ret

/-- Go `w.Header().Set(key, value)`. -/
def HeaderSet (key value : String) : Prog Unit := .headerSet key value (.ret ())

/-- Go `w.WriteHeader(code)`. -/
def WriteHeader (code : Int) : Prog Unit := .writeHeader code (.ret ())

/-- Go `w.Write(body)`. -/
def Write (body : String) : Prog Unit := .write body (.ret ())

/-- A call of `Infof` or `Logf` on a `logrus.Entry`. -/
def Logf (e : LogEntry) : Prog Unit := .logf e (.ret ())

/-- Go `time.Now()`. -/
def Now : Prog Nat := .now .ret

/-- Go `uuid.New().String()`. -/
def NewUUID : Prog String := .newUUID .ret

/-- One outbound exchange with an upstream; `none` is a transport failure. -/
def RoundTrip (target : URL) (r : Request) : Prog (Option Response) := .roundTrip target r .ret

end Prog

/-! ## The server -/

/-- The struct `Config` of `config.go`. -/
structure Config where
  BindAddr : String
  LogLevel : String
  JWT_Key : String
  AuthService_Addr : String
  deriving DecidableEq, Repr

/-- The function `NewConfig` of `config.go`. -/
def NewConfig : Config :=
  { BindAddr := ":8080", LogLevel := "debug", JWT_Key := "", AuthService_Addr := "" }

/-- A Go value held by the `interface{}` parameter of `respond` when it is
not `nil`.  The server never looks into a payload, it only hands it to the
encoder, so a value is given by what the encoder makes of it: the string maps
`error` builds are kept as such, and any other value (a struct, a number, a
string, a slice, a typed nil pointer, a channel, a function) is given by what
`json.Marshal` returns for it, the text or `none` for an error. -/
inductive Value where
  | stringMap (m : List (String × String))
  | other (encoding : Option String)
  deriving DecidableEq, Repr

/-- The code of other packages the server calls and that is not modelled here. -/
structure Lib where
  /-- Go `url.Parse`, `none` when it returns an error. -/
  urlParse : String → Option URL
  /-- Go `json.Marshal` on a `map[string]string`, which cannot fail. -/
  marshalStringMap : List (String × String) → String
  /-- The `ServeHTTP` of `httputil.NewSingleHostReverseProxy(url)`. -/
  reverseProxy : URL → Handler
  /-- The middleware `handlers.CORS(handlers.AllowedOrigins([]string{"*"}))`. -/
  cors : Middleware
  /-- The `String()` of the request URL once its path is replaced by the given one. -/
  urlString : Request → String → String

/-- The struct `server`; its router is `configureRouter` and its logger is the log of the world. -/
structure server where
  config : Config
  deriving DecidableEq, Repr

/-- The two package-level errors of `server.go`, by their messages. -/
def errIncorrectEmailOrPassword : String := "incorrect email or password"

/-- The message of `errNotAuthenticated`. -/
def errNotAuthenticated : String := "not authenticated"

/-- Go `http.StatusOK`. -/
def StatusOK : Int := 200

/-- Go `http.StatusUnauthorized`. -/
def StatusUnauthorized : Int := 401

/-- Go `json.Marshal`, `none` when it returns an error (as it does with
`UnsupportedTypeError` for a function or a channel). -/
def jsonMarshal (L : Lib) : Value → Option String
  | .stringMap m => some (L.marshalStringMap m)
  | .other encoding => encoding

/-- Go `json.NewEncoder(w).Encode(data)`: one `Write` of the encoding and a
newline; when the encoding fails nothing is written and the error, which
`respond` drops, is returned. -/
def Encode (L : Lib) (data : Value) : Prog Unit :=
  match jsonMarshal L data with
  | some b => Prog.Write (b ++ "\n")
  | none => pure ()

/-- The method `respond` of `server.go`; `data = none` is the `nil` interface. -/
def server.respond (L : Lib) (_s : server) (_r : Request) (code : Int)
    (data : Option Value) : Prog Unit := do
  Prog.WriteHeader code
  match data with
  | some d => Encode L d
  | none => pure ()

/-- The method `error` of `server.go`; `err` is the message `err.Error()`. -/
def server.error (L : Lib) (s : server) (r : Request) (code : Int) (err : String) :
    Prog Unit :=
  s.respond L r code (some (Value.stringMap [("error", err)]))

/-- The middleware `setRequestID` of `server.go`. -/
def server.setRequestID (_s : server) (next : Handler) : Handler := fun r => do
  let id ← Prog.NewUUID
  Prog.HeaderSet "X-Request-ID" id
  next (r.WithContext (r.Context.WithValue ctxKeyRequestID (CtxVal.str id)))

/-- Modelled from the spec: the type `responseWriter` that `logRequest` wraps
around its writer is not among the sources.  The spec: "the logger wraps the
response writer to record the first status code written, defaulting to 200 if
none explicitly set".  A program is run against the wrapper: every operation
goes on to the wrapped writer, and the first `WriteHeader` also sets `code`.
The result is the `code` field when the program returns. -/
def responseWriter.serve : Prog Unit → Int → Bool → Prog Int
  | .ret _, code, _ => .ret code
  | .headerGet key k, code, wrote => .headerGet key (fun v => responseWriter.serve (k v) code wrote)
  | .headerSet key value k, code, wrote => .headerSet key value (responseWriter.serve k code wrote)
  | .writeHeader c k, code, wrote =>
    .writeHeader c (responseWriter.serve k (if wrote then code else c) true)
  | .write body k, code, wrote => .write body (responseWriter.serve k code wrote)
  | .logf e k, code, wrote => .logf e (responseWriter.serve k code wrote)
  | .now k, code, wrote => .now (fun t => responseWriter.serve (k t) code wrote)
  | .newUUID k, code, wrote => .newUUID (fun id => responseWriter.serve (k id) code wrote)
  | .roundTrip target r k, code, wrote =>
    .roundTrip target r (fun res => responseWriter.serve (k res) code wrote)

/-- The `switch` of `logRequest` that picks the level of the completed event. -/
def levelOf (code : Int) : Level :=
  if code ≥ 500 then Level.ErrorLevel
  else if code ≥ 400 then Level.WarnLevel
  else Level.InfoLevel

/-- The entry `s.logger.WithFields(...)` of `logRequest`, called at a level with a format. -/
def loggerWithFields (r : Request) (level : Level) (format : String) (args : List Arg) :
    LogEntry :=
  { remote_addr := r.RemoteAddr
    request_id := r.Context.Value ctxKeyRequestID
    level := level
    format := format
    args := args }

/-- The middleware `logRequest` of `server.go`. -/
def server.logRequest (_s : server) (next : Handler) : Handler := fun r => do
  Prog.Logf (loggerWithFields r Level.InfoLevel "started %s %s"
    [Arg.str r.Method, Arg.str r.RequestURI])
  let start ← Prog.Now
  let code ← responseWriter.serve (next r) StatusOK false
  let level := levelOf code
  let stop ← Prog.Now
  Prog.Logf (loggerWithFields r level "completed with %d %s in %v"
    [Arg.int code, Arg.statusText code, Arg.elapsed start stop])

/-- The middleware `authenticateUser` of `server.go`. -/
def server.authenticateUser (L : Lib) (s : server) (next : Handler) : Handler := fun r => do
  let key ← Prog.HeaderGet "Authorization"
  if key == "" then
    s.respond L r StatusUnauthorized none
  next r

/-- The handler `handleRedirectAuthService` of `server.go`. -/
def server.handleRedirectAuthService (L : Lib) (s : server) : Handler := fun r =>
  match L.urlParse ("http://" ++ s.config.AuthService_Addr) with
  | some url => L.reverseProxy url r
  | none => pure ()

/-- The handler `handleRedirectUserService` of `server.go`. -/
def server.handleRedirectUserService (L : Lib) (_s : server) : Handler := fun r =>
  match L.urlParse ("http://" ++ "url UserService") with
  | some url => L.reverseProxy url r
  | none => pure ()

/-- The handler `handleRedirectBasketService` of `server.go`. -/
def server.handleRedirectBasketService (L : Lib) (_s : server) : Handler := fun r =>
  match L.urlParse ("http://" ++ "url BaketService") with
  | some url => L.reverseProxy url r
  | none => pure ()

/-! ## `gorilla/mux`: the route table and its matching loop -/

/-- The pieces of a path between slashes. -/
def splitSlash : List Char → List (List Char)
  | [] => [[]]
  | c :: cs =>
    if c = '/' then [] :: splitSlash cs
    else
      match splitSlash cs with
      | [] => [[c]]
      | seg :: rest => (c :: seg) :: rest

/-- One step of Go `path.Clean` on a rooted path: the elements kept so far, last first. -/
def cleanStep (kept : List (List Char)) (seg : List Char) : List (List Char) :=
  if seg = [] ∨ seg = ['.'] then kept
  else if seg = ['.', '.'] then kept.tail
  else seg :: kept

/-- Go `path.Clean` on a rooted path: empty and `.` elements are dropped, `..`
drops the element before it, and the rest is joined by single slashes. -/
def pathClean (p : List Char) : List Char :=
  '/' :: ['/'].intercalate ((splitSlash p).foldl cleanStep []).reverse

/-- The function `cleanPath` of `mux`: the canonical form of a request path. -/
def cleanPath (p : String) : String :=
  if p.data = [] then "/"
  else
    let q := if p.data.head? = some '/' then p.data else '/' :: p.data
    let np := pathClean q
    if q.getLast? = some '/' ∧ np ≠ ['/'] then String.mk (np ++ ['/']) else String.mk np

/-- A route registered with `HandleFunc(tpl, handler).Methods(methods...)`. -/
structure Leaf where
  tpl : String
  methods : List String
  handler : Handler

/-- A route of the top router: a leaf, or `PathPrefix(tpl).Subrouter()` with
the middlewares and leaves registered on the subrouter. -/
inductive Route where
  | handle (l : Leaf)
  | subrouter (tpl : String) (middlewares : List Middleware) (routes : List Leaf)

/-- The router `*mux.Router`: middlewares in `Use` order, routes in registration order. -/
structure Router where
  middlewares : List Middleware
  routes : List Route

/-- The errors a `mux.RouteMatch` carries. -/
inductive MatchErr where
  | ErrMethodMismatch
  | ErrNotFound
  deriving DecidableEq, Repr

/-- The struct `mux.RouteMatch`; `Route` is the template of the matched route. -/
structure RouteMatch where
  Route : Option String
  Handler : Option Handler
  MatchErr : Option MatchErr

/-- The middleware loop of `Router.Match`: the first middleware ends up outermost. -/
def applyMiddlewares (ms : List Middleware) (h : Handler) : Handler :=
  ms.foldr (fun m acc => m acc) h

/-- The method `Route.Match` of `mux` for a leaf whose full template is
`pfx ++ l.tpl`: the path matcher, then the method matcher. -/
def Leaf.Match (pfx : String) (l : Leaf) (req : Request) (m : RouteMatch) :
    Bool × RouteMatch :=
  if req.Path ≠ pfx ++ l.tpl then
    (false, if m.MatchErr = some MatchErr.ErrNotFound then { m with MatchErr := none } else m)
  else if req.Method ∉ l.methods then
    (false, { m with MatchErr := some MatchErr.ErrMethodMismatch })
  else
    let m1 : RouteMatch :=
      if m.MatchErr = some MatchErr.ErrMethodMismatch then
        { m with MatchErr := none, Handler := some l.handler }
      else m
    (true, { m1 with
      Route := some (m1.Route.getD (pfx ++ l.tpl))
      Handler := some (m1.Handler.getD l.handler) })

/-- The loop of `Router.Match` over the leaves of a subrouter. -/
def matchLeaves (pfx : String) (ms : List Middleware) :
    List Leaf → Request → RouteMatch → Bool × RouteMatch
  | [], _, m =>
    if m.MatchErr = some MatchErr.ErrMethodMismatch then (false, m)
    else (false, { m with MatchErr := some MatchErr.ErrNotFound })
  | l :: ls, req, m =>
    match l.Match pfx req m with
    | (true, m1) =>
      if m1.MatchErr = none then
        (true, { m1 with Handler := m1.Handler.map (applyMiddlewares ms) })
      else (true, m1)
    | (false, m1) => matchLeaves pfx ms ls req m1

/-- The method `Route.Match` of `mux` for a route of the top router. -/
def Route.Match : Route → Request → RouteMatch → Bool × RouteMatch
  | .handle l, req, m => l.Match "" req m
  | .subrouter tpl ms ls, req, m =>
    if ¬ tpl.data <+: req.Path.data then
      (false, if m.MatchErr = some MatchErr.ErrNotFound then { m with MatchErr := none } else m)
    else
      match matchLeaves tpl ms ls req m with
      | (true, m1) => (true, m1)
      | (false, m1) =>
        (false, if m1.MatchErr = some MatchErr.ErrNotFound then { m1 with MatchErr := none }
                else m1)

/-- The loop of `Router.Match` over the routes of the top router. -/
def matchRoutes (ms : List Middleware) : List Route → Request → RouteMatch → Bool × RouteMatch
  | [], _, m =>
    if m.MatchErr = some MatchErr.ErrMethodMismatch then (false, m)
    else (false, { m with MatchErr := some MatchErr.ErrNotFound })
  | rt :: rts, req, m =>
    match rt.Match req m with
    | (true, m1) =>
      if m1.MatchErr = none then
        (true, { m1 with Handler := m1.Handler.map (applyMiddlewares ms) })
      else (true, m1)
    | (false, m1) => matchRoutes ms rts req m1

/-- The method `Router.Match` of `mux`, from an empty `RouteMatch`. -/
def Router.Match (rt : Router) (req : Request) : Bool × RouteMatch :=
  matchRoutes rt.middlewares rt.routes req { Route := none, Handler := none, MatchErr := none }

/-- The context key `varsKey` of `mux`. -/
def varsKey : CtxKey := ⟨"mux.contextKey", 0⟩

/-- The context key `routeKey` of `mux`. -/
def routeKey : CtxKey := ⟨"mux.contextKey", 1⟩

/-- The functions `requestWithVars` and `requestWithRoute` of `mux`, for a
matched route without path variables, given by its template. -/
def requestWithMatch (req : Request) (route : String) : Request :=
  let r1 := req.WithContext (req.Context.WithValue varsKey (CtxVal.vars []))
  r1.WithContext (r1.Context.WithValue routeKey (CtxVal.route route))

/-- Go `http.StatusMovedPermanently`. -/
def StatusMovedPermanently : Int := 301

/-- Go `http.StatusNotFound`. -/
def StatusNotFound : Int := 404

/-- Go `http.StatusMethodNotAllowed`. -/
def StatusMethodNotAllowed : Int := 405

/-- Go `http.NotFound`, that is `http.Error(w, "404 page not found", 404)`. -/
def NotFound : Handler := fun _ => do
  Prog.HeaderSet "Content-Type" "text/plain; charset=utf-8"
  Prog.HeaderSet "X-Content-Type-Options" "nosniff"
  Prog.WriteHeader StatusNotFound
  Prog.Write "404 page not found\n"

/-- The handler `methodNotAllowed` of `mux`. -/
def methodNotAllowed : Handler := fun _ => Prog.WriteHeader StatusMethodNotAllowed

/-- The method `Router.ServeHTTP` of `mux`: a path that is not in canonical
form is redirected; otherwise the matched handler runs, and without a match
the answer is 405 after a method mismatch and 404 else. -/
def Router.ServeHTTP (L : Lib) (rt : Router) : Handler := fun req =>
  if cleanPath req.Path ≠ req.Path then do
    Prog.HeaderSet "Location" (L.urlString req (cleanPath req.Path))
    Prog.WriteHeader StatusMovedPermanently
  else
    match rt.Match req with
    | (true, m) =>
      match m.Handler with
      | some h => h (requestWithMatch req (m.Route.getD ""))
      | none => NotFound req
    | (false, m) =>
      if m.MatchErr = some MatchErr.ErrMethodMismatch then methodNotAllowed req
      else NotFound req

/-- The method `configureRouter` of `server.go`: the router it leaves in `s.router`. -/
def server.configureRouter (L : Lib) (s : server) : Router :=
  { middlewares := [s.setRequestID, s.logRequest, L.cors]
    routes :=
      [ Route.handle ⟨"/login", ["POST"], s.handleRedirectAuthService L⟩,
        Route.handle ⟨"/signup", ["POST"], s.handleRedirectAuthService L⟩,
        Route.subrouter "/private" [s.authenticateUser L]
          [ ⟨"/profile", ["GET", "PUT"], s.handleRedirectUserService L⟩,
            ⟨"/basket", ["GET", "PUT"], s.handleRedirectBasketService L⟩ ] ] }

/-- The function `newServer` of `server.go`; the router it configures is
`configureRouter`. -/
def newServer (config : Config) : server :=
  { config := config }

/-- The method `ServeHTTP` of `server.go`. -/
def server.ServeHTTP (L : Lib) (s : server) : Handler :=
  (s.configureRouter L).ServeHTTP L

/-! ## What a program wrote -/

/-- The calls a program makes on the connection's writer when run from `w`, in order. -/
def Prog.written {α : Type} : Prog α → World → List Call
  | .ret _, _ => []
  | .headerGet key k, w => (k (w.header.Get key)).written w
  | .headerSet key value k, w => k.written { w with header := w.header.Set key value }
  | .writeHeader code k, w =>
    Call.WriteHeader code :: k.written { w with calls := w.calls ++ [Call.WriteHeader code] }
  | .write body k, w =>
    Call.Write body :: k.written { w with calls := w.calls ++ [Call.Write body] }
  | .logf e k, w => k.written { w with log := w.log ++ [e] }
  | .now k, w => (k (w.clock w.ticks)).written { w with ticks := w.ticks + 1 }
  | .newUUID k, w => (k (w.uuid w.drawn)).written { w with drawn := w.drawn + 1 }
  | .roundTrip target r k, w =>
    (k (w.upstream target r)).written { w with outbound := w.outbound ++ [(target, r)] }

/-- The entries a program logs when run from `w`, in order. -/
def Prog.logged {α : Type} : Prog α → World → List LogEntry
  | .ret _, _ => []
  | .headerGet key k, w => (k (w.header.Get key)).logged w
  | .headerSet key value k, w => k.logged { w with header := w.header.Set key value }
  | .writeHeader code k, w => k.logged { w with calls := w.calls ++ [Call.WriteHeader code] }
  | .write body k, w => k.logged { w with calls := w.calls ++ [Call.Write body] }
  | .logf e k, w => e :: k.logged { w with log := w.log ++ [e] }
  | .now k, w => (k (w.clock w.ticks)).logged { w with ticks := w.ticks + 1 }
  | .newUUID k, w => (k (w.uuid w.drawn)).logged { w with drawn := w.drawn + 1 }
  | .roundTrip target r k, w =>
    (k (w.upstream target r)).logged { w with outbound := w.outbound ++ [(target, r)] }

/-- The status a recorder of the first explicit `WriteHeader` holds after a
list of calls, starting from `code`; `wrote` says a status was recorded before. -/
def firstStatus : List Call → Int → Bool → Int
  | [], code, _ => code
  | Call.WriteHeader c :: cs, code, wrote => firstStatus cs (if wrote then code else c) true
  | Call.Write _ :: cs, code, wrote => firstStatus cs code wrote

/-- The event `logRequest` logs before it runs `next`. -/
def startedEvent (r : Request) : LogEntry :=
  loggerWithFields r Level.InfoLevel "started %s %s" [Arg.str r.Method, Arg.str r.RequestURI]

/-- The event `logRequest` logs after `next` has returned: the level it is
logged at, the recorded status, and the two clock readings. -/
def completedEvent (r : Request) (level : Level) (code : Int) (start stop : Nat) : LogEntry :=
  loggerWithFields r level "completed with %d %s in %v"
    [Arg.int code, Arg.statusText code, Arg.elapsed start stop]

/-- The world in which `logRequest` hands over to `next`: the started event
is logged and the clock has been read once. -/
def World.entered (w : World) (r : Request) : World :=
  { w with log := w.log ++ [startedEvent r], ticks := w.ticks + 1 }

/-- The status `logRequest` finds in `rw.code` once `next` has returned. -/
def recordedStatus (next : Handler) (r : Request) (w : World) : Int :=
  ((responseWriter.serve (next r) StatusOK false).run (w.entered r)).1

/-! ## The writer of `net/http` -/

/-- The function `checkWriteHeaderCode` of `net/http`: `WriteHeader` panics
unless the code has three digits. -/
def checkWriteHeaderCode (code : Int) : Bool :=
  decide (100 ≤ code) && decide (code ≤ 999)

/-- Whether a call that returned leaves `wroteHeader` set on the `*response`
of `net/http` (Go 1.19 and later): a `Write`, which first writes the header
with 200 if none was written, or a `WriteHeader` with a three-digit code that
is not informational (`101 Switching Protocols` counts as final). -/
def Call.commitsHeader : Call → Bool
  | .WriteHeader c =>
    checkWriteHeaderCode c && !(decide (100 ≤ c) && decide (c ≤ 199) && decide (c ≠ 101))
  | .Write _ => true

/-- The field `wroteHeader` of the `*response` of `net/http`, from the calls made so far. -/
def World.wroteHeader (w : World) : Bool :=
  w.calls.any Call.commitsHeader

/-- How a handler ends: it returns, or it panics; either way with the world it leaves. -/
inductive Outcome (α : Type) where
  | returned (a : α) (w : World)
  | panicked (w : World)

/-- The world a handler leaves. -/
def Outcome.world {α : Type} : Outcome α → World
  | .returned _ w => w
  | .panicked w => w

/-- Whether the handler panicked. -/
def Outcome.isPanic {α : Type} : Outcome α → Bool
  | .returned _ _ => false
  | .panicked _ => true

/-- Runs a program against the writer the server hands to its handler, the
`*response` of `net/http`: as `run`, except that `WriteHeader` follows
`response.WriteHeader`: once the header is written the call is superfluous
and returns; before that, a code outside 100..999 panics, and the program
stops there. -/
def Prog.exec {α : Type} : Prog α → World → Outcome α
  | .ret a, w => .returned a w
  | .headerGet key k, w => (k (w.header.Get key)).exec w
  | .headerSet key value k, w => k.exec { w with header := w.header.Set key value }
  | .writeHeader code k, w =>
    if w.wroteHeader || checkWriteHeaderCode code then
      k.exec { w with calls := w.calls ++ [Call.WriteHeader code] }
    else .panicked w
  | .write body k, w => k.exec { w with calls := w.calls ++ [Call.Write body] }
  | .logf e k, w => k.exec { w with log := w.log ++ [e] }
  | .now k, w => (k (w.clock w.ticks)).exec { w with ticks := w.ticks + 1 }
  | .newUUID k, w => (k (w.uuid w.drawn)).exec { w with drawn := w.drawn + 1 }
  | .roundTrip target r k, w =>
    (k (w.upstream target r)).exec { w with outbound := w.outbound ++ [(target, r)] }

/-- Whether a call is an explicit `WriteHeader`. -/
def Call.isWriteHeader : Call → Bool
  | .WriteHeader _ => true
  | .Write _ => false

/-- The level the specification gives for a status code: error from 500 up,
warning from 400 to 499, info otherwise. -/
def specLevel (c : Int) : Level :=
  if c ≥ 500 then Level.ErrorLevel
  else if 400 ≤ c ∧ c ≤ 499 then Level.WarnLevel
  else Level.InfoLevel

/-- The route table as the specification lists it: the handler registered
for a path, wrapped in the authentication gate under the private group. -/
def routeHandler (L : Lib) (s : server) (path : String) : Handler :=
  if path = "/private/profile" then s.authenticateUser L (s.handleRedirectUserService L)
  else if path = "/private/basket" then s.authenticateUser L (s.handleRedirectBasketService L)
  else s.handleRedirectAuthService L

/-- The request `setRequestID` hands to `next` when it has drawn `id`. -/
def Request.tagged (r : Request) (id : String) : Request :=
  r.WithContext (r.Context.WithValue ctxKeyRequestID (CtxVal.str id))

/-! ## Concrete inputs -/

/-- A stand-in for the library at concrete inputs: the address parser rejects
a space, as `url.Parse` does in a host; the encoder renders a string map
without escaping, which is the JSON text when no character needs an escape;
the proxy relays the status and body of the upstream, or answers 502; the
CORS middleware passes the request on. -/
def sampleLib : Lib :=
  { urlParse := fun a => if a.data.contains ' ' then none else some ⟨a⟩
    marshalStringMap := fun m =>
      "\x7b" ++ ",".intercalate (m.map fun kv => "\"" ++ kv.1 ++ "\":\"" ++ kv.2 ++ "\"") ++ "\x7d"
    reverseProxy := fun url r => do
      let res ← Prog.RoundTrip url r
      match res with
      | none => Prog.WriteHeader 502
      | some resp => do
        Prog.WriteHeader resp.StatusCode
        Prog.Write resp.Body
    cors := fun next => next
    urlString := fun _ p => p }

/-- A world at the start of a request: nothing written, an upstream that answers 200. -/
def sampleWorld : World :=
  { header := []
    calls := []
    log := []
    outbound := []
    clock := fun n => 1000 + n
    ticks := 0
    uuid := fun n => "id-" ++ toString n
    drawn := 0
    upstream := fun _ _ => some ⟨200, [], "ok"⟩ }

/-- A server whose configuration names an auth upstream. -/
def sampleServer : server :=
  ⟨{ NewConfig with AuthService_Addr := "auth:8081" }⟩

/-- A server whose configured auth address does not parse (a space in the host). -/
def sampleServerBadAddr : server :=
  ⟨{ NewConfig with AuthService_Addr := "auth service:8081" }⟩

/-- A request with the given method, path and headers. -/
def sampleRequest (method path : String) (hdr : Header) : Request :=
  { Method := method
    Path := path
    RequestURI := path
    RemoteAddr := "10.0.0.7:51234"
    Header := hdr
    Body := ""
    ctx := [] }

/-- An upstream address that parses. -/
def sampleUpstream : URL := ⟨"http://users:8082"⟩


/-! ## Programs: sequencing and running -/

@[simp] theorem Prog.pure_eq {α : Type} (a : α) : (pure a : Prog α) = Prog.ret a := rfl

@[simp] theorem Prog.bind_eq {α β : Type} (p : Prog α) (f : α → Prog β) :
    p >>= f = p.bind f := rfl

theorem Prog.run_bind {α β : Type} (p : Prog α) (f : α → Prog β) (w : World) :
    (p.bind f).run w = (f (p.run w).1).run (p.run w).2 := by
  induction p generalizing w with
  | ret a => rfl
  | headerGet key k ih => exact ih _ w
  | headerSet key value k ih => exact ih _
  | writeHeader code k ih => exact ih _
  | write body k ih => exact ih _
  | logf e k ih => exact ih _
  | now k ih => exact ih _ _
  | newUUID k ih => exact ih _ _
  | roundTrip target r k ih => exact ih _ _

theorem Prog.run_calls {α : Type} (p : Prog α) (w : World) :
    (p.run w).2.calls = w.calls ++ p.written w := by
  induction p generalizing w with
  | ret a => simp [Prog.run, Prog.written]
  | headerGet key k ih => exact ih _ w
  | headerSet key value k ih => exact ih _
  | writeHeader code k ih => simp [Prog.run, Prog.written, ih]
  | write body k ih => simp [Prog.run, Prog.written, ih]
  | logf e k ih => exact ih _
  | now k ih => exact ih _ _
  | newUUID k ih => exact ih _ _
  | roundTrip target r k ih => exact ih _ _

theorem Header.get_set (h : Header) (key value : String) :
    (h.Set key value).Get key = value := by
  simp [Header.Get, Header.Set, List.lookup]

/-! ## The authentication gate -/

theorem authenticateUser_eq (L : Lib) (s : server) (next : Handler) (r : Request) :
    s.authenticateUser L next r = Prog.headerGet "Authorization" (fun key =>
      if key = "" then Prog.writeHeader 401 (next r) else next r) := by
  simp only [server.authenticateUser, server.respond, Prog.HeaderGet, Prog.WriteHeader,
    Prog.bind_eq, Prog.bind, Prog.pure_eq, StatusUnauthorized]
  congr 1
  funext key
  by_cases h : key = "" <;> simp [h, Prog.bind]

/-- C1, as the code has it: for a request without an `Authorization` header
(the writer's header map having none either) the gate calls `WriteHeader(401)`
and then runs `next` on the request all the same: its run is the run of
`next` from the world in which 401 has been written. -/
theorem authenticateUser_missing_credential_runs_next (L : Lib) (s : server) (next : Handler)
    (r : Request) (w : World) (_hr : r.Header.Get "Authorization" = "")
    (hw : w.header.Get "Authorization" = "") :
    (s.authenticateUser L next r).run w =
      (next r).run { w with calls := w.calls ++ [Call.WriteHeader 401] } := by
  rw [authenticateUser_eq]
  simp [Prog.run, hw]

/-- C1 at `GET /private/profile` without credential, `next` being a proxy to
an upstream that answers: 401 is written, then the upstream is called and its
answer is written too. -/
theorem authenticateUser_missing_credential_runs_next_witness :
    (sampleRequest "GET" "/private/profile" []).Header.Get "Authorization" = "" ∧
    sampleWorld.header.Get "Authorization" = "" ∧
    ((sampleServer.authenticateUser sampleLib (sampleLib.reverseProxy sampleUpstream)
        (sampleRequest "GET" "/private/profile" [])).run sampleWorld).2.calls =
      [Call.WriteHeader 401, Call.WriteHeader 200, Call.Write "ok"] ∧
    ((sampleServer.authenticateUser sampleLib (sampleLib.reverseProxy sampleUpstream)
        (sampleRequest "GET" "/private/profile" [])).run sampleWorld).2.outbound =
      [(sampleUpstream, sampleRequest "GET" "/private/profile" [])] := by
  refine ⟨by decide, by decide, ?_, ?_⟩
  · rw [authenticateUser_missing_credential_runs_next _ _ _ _ _ (by decide) (by decide)]
    decide
  · rw [authenticateUser_missing_credential_runs_next _ _ _ _ _ (by decide) (by decide)]
    decide

/-- C2, as the code has it: the gate reads the writer's header map, not the
request: a request that carries a non-empty `Authorization` value, the
response headers carrying none, is answered with `WriteHeader(401)` before
`next` runs. -/
theorem authenticateUser_ignores_request_credential (L : Lib) (s : server) (next : Handler)
    (r : Request) (w : World) (_hr : r.Header.Get "Authorization" ≠ "")
    (hw : w.header.Get "Authorization" = "") :
    ((s.authenticateUser L next r).run w).2.calls =
      w.calls ++ Call.WriteHeader 401 ::
        (next r).written { w with calls := w.calls ++ [Call.WriteHeader 401] } := by
  rw [authenticateUser_eq]
  simp [Prog.run, hw, Prog.run_calls]

/-- C2 at `GET /private/profile` with `Authorization: Bearer token`, the
response carrying only the request identifier: the first call is `WriteHeader(401)`. -/
theorem authenticateUser_ignores_request_credential_witness :
    (sampleRequest "GET" "/private/profile" [("Authorization", ["Bearer token"])]).Header.Get
      "Authorization" = "Bearer token" ∧
    ((sampleServer.authenticateUser sampleLib (sampleLib.reverseProxy sampleUpstream)
        (sampleRequest "GET" "/private/profile" [("Authorization", ["Bearer token"])])).run
        { sampleWorld with header := [("X-Request-Id", ["id-0"])] }).2.calls =
      [Call.WriteHeader 401, Call.WriteHeader 200, Call.Write "ok"] := by
  refine ⟨by decide, ?_⟩
  rw [authenticateUser_ignores_request_credential _ _ _ _ _ (by decide) (by decide)]
  decide

/-- C7, as the code has it: when the gate rejects, all it writes itself is
the call `WriteHeader(401)`; no body, hence no JSON error object, precedes
what `next` goes on to write. -/
theorem authenticateUser_rejection_writes_status_only (L : Lib) (s : server) (next : Handler)
    (r : Request) (w : World) (hw : w.header.Get "Authorization" = "") :
    (s.authenticateUser L next r).written w =
      Call.WriteHeader 401 ::
        (next r).written { w with calls := w.calls ++ [Call.WriteHeader 401] } := by
  rw [authenticateUser_eq]
  simp [Prog.written, hw]

/-- C7 at `GET /private/basket` without credential and a `next` that writes
nothing: the whole response is the status 401 with an empty body. -/
theorem authenticateUser_rejection_writes_status_only_witness :
    sampleWorld.header.Get "Authorization" = "" ∧
    (sampleServer.authenticateUser sampleLib (fun _ => pure ())
        (sampleRequest "GET" "/private/basket" [])).written sampleWorld =
      [Call.WriteHeader 401] := by
  refine ⟨by decide, ?_⟩
  rw [authenticateUser_rejection_writes_status_only _ _ _ _ _ (by decide)]
  rfl

/-! ## The proxy handlers -/

/-- C4, as the code has it: when the upstream address does not parse, each
of the three proxy handlers returns without any operation: no status, no
body, no header, no outbound call; the world is left as it was. -/
theorem handleRedirect_unparsable_address_writes_nothing (L : Lib) (s : server) (r : Request)
    (w : World)
    (hAuth : L.urlParse ("http://" ++ s.config.AuthService_Addr) = none)
    (hUser : L.urlParse ("http://" ++ "url UserService") = none)
    (hBasket : L.urlParse ("http://" ++ "url BaketService") = none) :
    (s.handleRedirectAuthService L r).run w = ((), w) ∧
    (s.handleRedirectUserService L r).run w = ((), w) ∧
    (s.handleRedirectBasketService L r).run w = ((), w) := by
  refine ⟨?_, ?_, ?_⟩
  · unfold server.handleRedirectAuthService
    rw [hAuth]
    rfl
  · unfold server.handleRedirectUserService
    rw [hUser]
    rfl
  · unfold server.handleRedirectBasketService
    rw [hBasket]
    rfl

/-- C4 at a configuration whose auth address holds a space, and at the two
hard-coded addresses, which hold one too: nothing is written. -/
theorem handleRedirect_unparsable_address_writes_nothing_witness :
    ((sampleServerBadAddr.handleRedirectAuthService sampleLib
        (sampleRequest "POST" "/login" [])).run sampleWorld).2.calls = [] ∧
    ((sampleServerBadAddr.handleRedirectUserService sampleLib
        (sampleRequest "GET" "/private/profile" [])).run sampleWorld).2.calls = [] ∧
    ((sampleServerBadAddr.handleRedirectBasketService sampleLib
        (sampleRequest "GET" "/private/basket" [])).run sampleWorld).2.calls = [] := by
  have h := fun r => handleRedirect_unparsable_address_writes_nothing sampleLib
    sampleServerBadAddr r sampleWorld (by decide) (by decide) (by decide)
  exact ⟨by rw [(h _).1]; rfl, by rw [(h _).2.1]; rfl, by rw [(h _).2.2]; rfl⟩

/-! ## The correlation tagger -/

/-- C5: `setRequestID(next)` draws an identifier `id`, sets the response
header `X-Request-ID` to it, and only then runs `next`, once, on a request
whose context maps `ctxKeyRequestID` to `id` and whose method, path, URI,
remote address, headers and body are those of the inbound request. -/
theorem setRequestID_tags_response_and_context (s : server) (next : Handler) (r : Request)
    (w : World) :
    s.setRequestID next r =
      Prog.newUUID (fun id => Prog.headerSet "X-Request-ID" id
        (next (r.WithContext (r.Context.WithValue ctxKeyRequestID (CtxVal.str id))))) ∧
    (s.setRequestID next r).run w =
      (next (r.WithContext (r.Context.WithValue ctxKeyRequestID (CtxVal.str (w.uuid w.drawn))))).run
        { w with header := w.header.Set "X-Request-ID" (w.uuid w.drawn), drawn := w.drawn + 1 } ∧
    (w.header.Set "X-Request-ID" (w.uuid w.drawn)).Get "X-Request-ID" = w.uuid w.drawn ∧
    ∀ id : String,
      (r.WithContext (r.Context.WithValue ctxKeyRequestID (CtxVal.str id))).Context.Value
          ctxKeyRequestID = some (CtxVal.str id) ∧
      r.WithContext (r.Context.WithValue ctxKeyRequestID (CtxVal.str id)) =
        { r with ctx := (ctxKeyRequestID, CtxVal.str id) :: r.ctx } := by
  refine ⟨rfl, rfl, Header.get_set _ _ _, fun id => ⟨?_, rfl⟩⟩
  simp [Request.WithContext, Request.Context, Context.WithValue, Context.Value, List.lookup]

/-! ## The response helper -/

theorem respond_eq (L : Lib) (s : server) (r : Request) (code : Int) (data : Option Value) :
    s.respond L r code data =
      Prog.writeHeader code
        (match data.bind (jsonMarshal L) with
         | some b => Prog.write (b ++ "\n") (Prog.ret ())
         | none => Prog.ret ()) := by
  cases data with
  | none => rfl
  | some d =>
    cases d with
    | stringMap m => rfl
    | other encoding =>
      cases encoding with
      | none => rfl
      | some b => rfl

theorem Prog.exec_returned {α : Type} (p : Prog α) (w w1 : World) (a : α)
    (h : p.exec w = Outcome.returned a w1) : p.run w = (a, w1) := by
  induction p generalizing w with
  | ret b =>
    simp only [Prog.exec, Outcome.returned.injEq] at h
    simp [Prog.run, h.1, h.2]
  | headerGet key k ih => exact ih _ w h
  | headerSet key value k ih => exact ih _ h
  | writeHeader code k ih =>
    simp only [Prog.exec] at h
    split at h
    · exact ih _ h
    · exact absurd h (by simp)
  | write body k ih => exact ih _ h
  | logf e k ih => exact ih _ h
  | now k ih => exact ih _ _ h
  | newUUID k ih => exact ih _ _ h
  | roundTrip target r k ih => exact ih _ _ h

/-- C8, refuted as stated, at two inputs.  `error(0, errNotAuthenticated)` on
a writer nothing was written to: the payload is not nil, yet `WriteHeader(0)`
panics, so neither a status nor a body is written.  `respond` with status 200
and a payload that is not nil but cannot be encoded (a function, a channel):
the status is written and no body. -/
theorem respond_body_not_iff_payload :
    (((sampleServer.error sampleLib (sampleRequest "GET" "/private/profile" []) 0
        errNotAuthenticated).exec sampleWorld).isPanic = true ∧
      ((sampleServer.error sampleLib (sampleRequest "GET" "/private/profile" []) 0
        errNotAuthenticated).exec sampleWorld).world.calls = []) ∧
    (((sampleServer.respond sampleLib (sampleRequest "GET" "/private/profile" []) 200
        (some (Value.other none))).exec sampleWorld).isPanic = false ∧
      ((sampleServer.respond sampleLib (sampleRequest "GET" "/private/profile" []) 200
        (some (Value.other none))).exec sampleWorld).world.calls = [Call.WriteHeader 200]) ∧
    ¬ ∀ (code : Int) (data : Option Value),
      ((∃ b, Call.Write b ∈ ((sampleServer.respond sampleLib
          (sampleRequest "GET" "/private/profile" []) code data).exec sampleWorld).world.calls) ↔
        data ≠ none) := by
  refine ⟨by decide, by decide, fun h => ?_⟩
  obtain ⟨b, hb⟩ := (h 200 (some (Value.other none))).2 (by simp)
  have hcalls : ((sampleServer.respond sampleLib (sampleRequest "GET" "/private/profile" []) 200
      (some (Value.other none))).exec sampleWorld).world.calls = [Call.WriteHeader 200] := by
    decide
  rw [hcalls] at hb
  simp at hb

/-- C8, amended: for every status code and payload, `respond` first calls
`WriteHeader(code)`, once.  On the server's writer that call panics when the
code is outside 100..999 and no header has been written yet, and then nothing
is written.  Otherwise `respond` goes on to write a body exactly when the
payload is not nil and its JSON encoding succeeds, in one `Write` of the
encoding followed by a newline, and returns.  `error(code, err)` is `respond`
with the one-entry map from `error` to the message of `err`: under the same
condition on `code` it writes the encoding of that map and a newline. -/
theorem respond_writes_status_then_encoding (L : Lib) (s : server) (r : Request) (code : Int)
    (data : Option Value) (err : String) (w : World) :
    (s.respond L r code data).exec w =
      (if w.wroteHeader = false ∧ ¬ (100 ≤ code ∧ code ≤ 999) then Outcome.panicked w
       else Outcome.returned () { w with calls := w.calls ++ Call.WriteHeader code ::
        (match data.bind (jsonMarshal L) with
         | some b => [Call.Write (b ++ "\n")]
         | none => []) }) ∧
    (s.error L r code err).exec w =
      (if w.wroteHeader = false ∧ ¬ (100 ≤ code ∧ code ≤ 999) then Outcome.panicked w
       else Outcome.returned () { w with calls := w.calls ++
        [Call.WriteHeader code, Call.Write (L.marshalStringMap [("error", err)] ++ "\n")] }) := by
  have hcond : (w.wroteHeader || checkWriteHeaderCode code) = true ↔
      ¬ (w.wroteHeader = false ∧ ¬ (100 ≤ code ∧ code ≤ 999)) := by
    cases hw : w.wroteHeader <;> simp [checkWriteHeaderCode]
  constructor
  · rw [respond_eq]
    by_cases hc : w.wroteHeader = false ∧ ¬ (100 ≤ code ∧ code ≤ 999)
    · rw [if_pos hc]
      have hn : ¬ (w.wroteHeader || checkWriteHeaderCode code) = true := fun h => hcond.1 h hc
      simp only [Prog.exec, if_neg hn]
    · rw [if_neg hc]
      have hp : (w.wroteHeader || checkWriteHeaderCode code) = true := hcond.2 hc
      simp only [Prog.exec, if_pos hp]
      cases h : data.bind (jsonMarshal L) <;> simp [Prog.exec]
  · unfold server.error
    rw [respond_eq]
    by_cases hc : w.wroteHeader = false ∧ ¬ (100 ≤ code ∧ code ≤ 999)
    · rw [if_pos hc]
      have hn : ¬ (w.wroteHeader || checkWriteHeaderCode code) = true := fun h => hcond.1 h hc
      simp only [Prog.exec, if_neg hn]
    · rw [if_neg hc]
      have hp : (w.wroteHeader || checkWriteHeaderCode code) = true := hcond.2 hc
      simp only [Prog.exec, if_pos hp]
      simp [jsonMarshal, Prog.exec]

/-! ## The access logger -/

theorem Prog.run_log {α : Type} (p : Prog α) (w : World) :
    (p.run w).2.log = w.log ++ p.logged w := by
  induction p generalizing w with
  | ret a => simp [Prog.run, Prog.logged]
  | headerGet key k ih => exact ih _ w
  | headerSet key value k ih => exact ih _
  | writeHeader code k ih => exact ih _
  | write body k ih => exact ih _
  | logf e k ih => simp [Prog.run, Prog.logged, ih]
  | now k ih => exact ih _ _
  | newUUID k ih => exact ih _ _
  | roundTrip target r k ih => exact ih _ _

theorem responseWriter.serve_run (p : Prog Unit) (code : Int) (wrote : Bool) (w : World) :
    (responseWriter.serve p code wrote).run w =
      (firstStatus (p.written w) code wrote, (p.run w).2) := by
  induction p generalizing w code wrote with
  | ret a => rfl
  | headerGet key k ih => exact ih _ _ _ w
  | headerSet key value k ih => exact ih _ _ _
  | writeHeader c k ih => exact ih _ _ _
  | write body k ih => exact ih _ _ _
  | logf e k ih => exact ih _ _ _
  | now k ih => exact ih _ _ _ _
  | newUUID k ih => exact ih _ _ _ _
  | roundTrip target r k ih => exact ih _ _ _ _

theorem firstStatus_of_no_WriteHeader (cs : List Call) (code : Int) (wrote : Bool)
    (h : ∀ c, Call.WriteHeader c ∉ cs) : firstStatus cs code wrote = code := by
  induction cs generalizing code wrote with
  | nil => rfl
  | cons x xs ih =>
    cases x with
    | WriteHeader c => exact absurd (List.mem_cons_self _ _) (h c)
    | Write b =>
      simp only [firstStatus]
      exact ih _ _ (fun c hc => h c (List.mem_cons_of_mem _ hc))

theorem levelOf_eq_specLevel (c : Int) : levelOf c = specLevel c := by
  unfold levelOf specLevel
  by_cases h5 : c ≥ 500
  · simp [h5]
  · by_cases h4 : c ≥ 400
    · have : 400 ≤ c ∧ c ≤ 499 := ⟨h4, by omega⟩
      simp [h5, h4, this]
    · have : ¬ (400 ≤ c ∧ c ≤ 499) := fun h => h4 h.1
      simp [h5, h4, this]

theorem logRequest_run (s : server) (next : Handler) (r : Request) (w : World) :
    (s.logRequest next r).run w =
      ((), { ((next r).run (w.entered r)).2 with
        ticks := ((next r).run (w.entered r)).2.ticks + 1
        log := ((next r).run (w.entered r)).2.log ++
          [completedEvent r (levelOf (recordedStatus next r w)) (recordedStatus next r w)
            (w.clock w.ticks)
            (((next r).run (w.entered r)).2.clock ((next r).run (w.entered r)).2.ticks)] }) := by
  simp only [server.logRequest, Prog.Logf, Prog.Now, Prog.bind_eq, Prog.bind, Prog.run,
    Prog.run_bind, responseWriter.serve_run, recordedStatus, World.entered, startedEvent,
    completedEvent]

theorem recordedStatus_eq (next : Handler) (r : Request) (w : World) :
    recordedStatus next r w = firstStatus ((next r).written (w.entered r)) StatusOK false := by
  simp [recordedStatus, responseWriter.serve_run]

/-- C6: the completed event of `logRequest` is the last entry of the log, and
the level it is logged at is the one the specification gives for the recorded
status `c`: error when `c ≥ 500`, warning when `400 ≤ c ≤ 499`, info
otherwise; and every integer `c` is a status that can be recorded (by a
handler that writes it). -/
theorem logRequest_level_follows_status (s : server) (next : Handler) (r : Request)
    (w : World) (c : Int) :
    ((s.logRequest next r).run w).2.log.getLast? =
      some (completedEvent r (specLevel (recordedStatus next r w)) (recordedStatus next r w)
        (w.clock w.ticks)
        (((next r).run (w.entered r)).2.clock ((next r).run (w.entered r)).2.ticks)) ∧
    recordedStatus (fun _ => Prog.WriteHeader c) r w = c ∧
    ((s.logRequest (fun _ => Prog.WriteHeader c) r).run w).2.log =
      w.log ++ [startedEvent r,
        completedEvent r (specLevel c) c (w.clock w.ticks) (w.clock (w.ticks + 1))] ∧
    specLevel c =
      (if c ≥ 500 then Level.ErrorLevel
       else if 400 ≤ c ∧ c ≤ 499 then Level.WarnLevel
       else Level.InfoLevel) := by
  have hc : recordedStatus (fun _ => Prog.WriteHeader c) r w = c := by
    simp [recordedStatus_eq, Prog.WriteHeader, Prog.written, firstStatus]
  refine ⟨?_, hc, ?_, rfl⟩
  · rw [logRequest_run, levelOf_eq_specLevel]
    simp
  · rw [logRequest_run, levelOf_eq_specLevel, hc]
    simp [Prog.WriteHeader, Prog.run, World.entered]

/-- C10: when the wrapped handler returns without an explicit `WriteHeader`,
the status `logRequest` has recorded is 200, and the completed event reports
200 and is logged at info level. -/
theorem logRequest_defaults_to_200 (s : server) (next : Handler) (r : Request) (w : World)
    (h : ∀ c, Call.WriteHeader c ∉ (next r).written (w.entered r)) :
    recordedStatus next r w = 200 ∧
    ((s.logRequest next r).run w).2.log.getLast? =
      some (completedEvent r Level.InfoLevel 200 (w.clock w.ticks)
        (((next r).run (w.entered r)).2.clock ((next r).run (w.entered r)).2.ticks)) := by
  have hc : recordedStatus next r w = 200 := by
    rw [recordedStatus_eq, firstStatus_of_no_WriteHeader _ _ _ h]
    rfl
  refine ⟨hc, ?_⟩
  rw [logRequest_run, hc]
  simp [levelOf]

/-- C10 at a handler that writes a body and no status: the log ends with the
completed event at info level reporting 200. -/
theorem logRequest_defaults_to_200_witness :
    (∀ c, Call.WriteHeader c ∉
      ((fun _ => Prog.Write "pong" : Handler) (sampleRequest "POST" "/login" [])).written
        (sampleWorld.entered (sampleRequest "POST" "/login" []))) ∧
    ((sampleServer.logRequest (fun _ => Prog.Write "pong")
        (sampleRequest "POST" "/login" [])).run sampleWorld).2.log.getLast? =
      some (completedEvent (sampleRequest "POST" "/login" []) Level.InfoLevel 200 1000 1001) := by
  have h : ∀ c, Call.WriteHeader c ∉
      ((fun _ => Prog.Write "pong" : Handler) (sampleRequest "POST" "/login" [])).written
        (sampleWorld.entered (sampleRequest "POST" "/login" [])) := by
    intro c hc
    simp [Prog.Write, Prog.written] at hc
  exact ⟨h, (logRequest_defaults_to_200 sampleServer _ _ sampleWorld h).2⟩

/-! ## The router -/

/-- C3, refuted as stated: `DELETE /login` is answered with 405, not 404 (the
path is registered, the method is not). -/
theorem ServeHTTP_delete_login_is_405 :
    ((sampleServer.ServeHTTP sampleLib (sampleRequest "DELETE" "/login" [])).run
      sampleWorld).2.calls = [Call.WriteHeader 405] ∧
    Call.WriteHeader 404 ∉
      ((sampleServer.ServeHTTP sampleLib (sampleRequest "DELETE" "/login" [])).run
        sampleWorld).2.calls := by
  decide

/-- C3, amended: the four registered paths are in canonical form, and for
every request the router does exactly one of these: it redirects with 301
when the path is not in canonical form; it runs the auth proxy handler
(inside tagger, logger and CORS) when the method is POST and the path is
`/login` or `/signup`; it runs the user, respectively basket, proxy handler
(inside tagger, logger, CORS and the gate) when the method is GET or PUT and
the path is `/private/profile`, respectively `/private/basket`; it answers
405, with no handler run, when the path is one of the four and the method is
another; it answers 404, with no handler run, for every other path. -/
theorem ServeHTTP_dispatches_by_table (L : Lib) (s : server) (req : Request) :
    (cleanPath "/login" = "/login" ∧ cleanPath "/signup" = "/signup" ∧
      cleanPath "/private/profile" = "/private/profile" ∧
      cleanPath "/private/basket" = "/private/basket") ∧
    (∀ w : World,
      (methodNotAllowed req).written w = [Call.WriteHeader 405] ∧
      (NotFound req).written w = [Call.WriteHeader 404, Call.Write "404 page not found\n"]) ∧
    s.ServeHTTP L req =
      if cleanPath req.Path ≠ req.Path then
        Prog.headerSet "Location" (L.urlString req (cleanPath req.Path))
          (Prog.writeHeader 301 (Prog.ret ()))
      else if req.Path = "/login" ∨ req.Path = "/signup" then
        if req.Method = "POST" then
          s.setRequestID (s.logRequest (L.cors (s.handleRedirectAuthService L)))
            (requestWithMatch req req.Path)
        else methodNotAllowed req
      else if req.Path = "/private/profile" then
        if req.Method = "GET" ∨ req.Method = "PUT" then
          s.setRequestID (s.logRequest (L.cors (s.authenticateUser L
            (s.handleRedirectUserService L)))) (requestWithMatch req req.Path)
        else methodNotAllowed req
      else if req.Path = "/private/basket" then
        if req.Method = "GET" ∨ req.Method = "PUT" then
          s.setRequestID (s.logRequest (L.cors (s.authenticateUser L
            (s.handleRedirectBasketService L)))) (requestWithMatch req req.Path)
        else methodNotAllowed req
      else NotFound req := by
  refine ⟨by decide, fun _ => ⟨rfl, rfl⟩, ?_⟩
  unfold server.ServeHTTP Router.ServeHTTP
  by_cases hc : cleanPath req.Path ≠ req.Path
  · rw [if_pos hc, if_pos hc]
    rfl
  · rw [if_neg hc, if_neg hc]
    by_cases h1 : req.Path = "/login"
    · by_cases hm : req.Method = "POST" <;>
        simp [h1, hm, server.configureRouter, Router.Match, matchRoutes, Route.Match,
          Leaf.Match, applyMiddlewares, matchLeaves]
    · by_cases h2 : req.Path = "/signup"
      · by_cases hm : req.Method = "POST" <;>
          simp [h2, hm, server.configureRouter, Router.Match, matchRoutes, Route.Match,
            Leaf.Match, applyMiddlewares, matchLeaves]
      · by_cases h3 : req.Path = "/private/profile"
        · by_cases hg : req.Method = "GET" <;> by_cases hp : req.Method = "PUT" <;>
            simp [h3, hg, hp, server.configureRouter, Router.Match, matchRoutes, Route.Match,
              Leaf.Match, applyMiddlewares, matchLeaves]
        · by_cases h4 : req.Path = "/private/basket"
          · by_cases hg : req.Method = "GET" <;> by_cases hp : req.Method = "PUT" <;>
              simp [h4, hg, hp, server.configureRouter, Router.Match, matchRoutes,
                Route.Match, Leaf.Match, applyMiddlewares, matchLeaves]
          · by_cases hp : "/private".data <+: req.Path.data <;>
              simp [h1, h2, h3, h4, hp, server.configureRouter, Router.Match, matchRoutes,
                Route.Match, Leaf.Match, applyMiddlewares, matchLeaves]

theorem ServeHTTP_matched (L : Lib) (s : server) (req : Request)
    (hm : (req.Method = "POST" ∧ (req.Path = "/login" ∨ req.Path = "/signup")) ∨
      ((req.Method = "GET" ∨ req.Method = "PUT") ∧
        (req.Path = "/private/profile" ∨ req.Path = "/private/basket"))) :
    s.ServeHTTP L req =
      s.setRequestID (s.logRequest (L.cors (routeHandler L s req.Path)))
        (requestWithMatch req req.Path) := by
  have hclean : ∀ p : String, p = "/login" ∨ p = "/signup" ∨ p = "/private/profile" ∨
      p = "/private/basket" → cleanPath p = p := by
    intro p hp
    rcases hp with h | h | h | h <;> subst h <;> decide
  unfold server.ServeHTTP Router.ServeHTTP
  rcases hm with ⟨hmeth, hp | hp⟩ | ⟨hmeth | hmeth, hp | hp⟩ <;>
    simp [hp, hmeth, hclean, routeHandler, server.configureRouter, Router.Match, matchRoutes,
      Route.Match, Leaf.Match, applyMiddlewares, matchLeaves]

theorem setRequestID_run (s : server) (next : Handler) (r : Request) (w : World) :
    (s.setRequestID next r).run w =
      (next (r.tagged (w.uuid w.drawn))).run
        { w with header := w.header.Set "X-Request-ID" (w.uuid w.drawn), drawn := w.drawn + 1 } :=
  rfl

theorem logRequest_log (s : server) (next : Handler) (r : Request) (w : World) :
    ((s.logRequest next r).run w).2.log =
      w.log ++ startedEvent r :: ((next r).logged (w.entered r) ++
        [completedEvent r (levelOf (recordedStatus next r w)) (recordedStatus next r w)
          (w.clock w.ticks)
          (((next r).run (w.entered r)).2.clock ((next r).run (w.entered r)).2.ticks)]) := by
  rw [logRequest_run]
  simp [Prog.run_log, World.entered]

theorem tagged_request_id (r : Request) (id : String) :
    (r.tagged id).Context.Value ctxKeyRequestID = some (CtxVal.str id) := by
  simp [Request.tagged, Request.WithContext, Request.Context, Context.WithValue, Context.Value,
    List.lookup]

/-! ## The order of the middlewares -/

/-- C9: for every request that matches a route, the router runs tagger, then
logger, then CORS, then the handler of the route, which under `/private` is
the gate around the proxy handler, the gate doing its check before it runs
the proxy handler.  In the run, the logger starts in a world whose response
header `X-Request-ID` is the identifier `id` the tagger drew, and the
`request_id` field of its started and completed events is that same `id`,
not nil. -/
theorem middlewares_run_in_order (L : Lib) (s : server) (req : Request) (w : World)
    (hm : (req.Method = "POST" ∧ (req.Path = "/login" ∨ req.Path = "/signup")) ∨
      ((req.Method = "GET" ∨ req.Method = "PUT") ∧
        (req.Path = "/private/profile" ∨ req.Path = "/private/basket"))) :
    s.ServeHTTP L req =
      s.setRequestID (s.logRequest (L.cors (routeHandler L s req.Path)))
        (requestWithMatch req req.Path) ∧
    (req.Path = "/login" ∨ req.Path = "/signup" →
      routeHandler L s req.Path = s.handleRedirectAuthService L) ∧
    (req.Path = "/private/profile" →
      routeHandler L s req.Path = s.authenticateUser L (s.handleRedirectUserService L)) ∧
    (req.Path = "/private/basket" →
      routeHandler L s req.Path = s.authenticateUser L (s.handleRedirectBasketService L)) ∧
    (∀ (proxy : Handler) (r : Request),
      s.authenticateUser L proxy r = Prog.headerGet "Authorization" (fun key =>
        if key = "" then Prog.writeHeader 401 (proxy r) else proxy r)) ∧
    (s.ServeHTTP L req).run w =
      (s.logRequest (L.cors (routeHandler L s req.Path))
          ((requestWithMatch req req.Path).tagged (w.uuid w.drawn))).run
        { w with header := w.header.Set "X-Request-ID" (w.uuid w.drawn), drawn := w.drawn + 1 } ∧
    (w.header.Set "X-Request-ID" (w.uuid w.drawn)).Get "X-Request-ID" = w.uuid w.drawn ∧
    (∃ middle last,
      ((s.ServeHTTP L req).run w).2.log =
        w.log ++ startedEvent ((requestWithMatch req req.Path).tagged (w.uuid w.drawn)) ::
          (middle ++ [last]) ∧
      (startedEvent ((requestWithMatch req req.Path).tagged (w.uuid w.drawn))).request_id =
        some (CtxVal.str (w.uuid w.drawn)) ∧
      last.request_id = some (CtxVal.str (w.uuid w.drawn)) ∧
      last.format = "completed with %d %s in %v") := by
  have hd := ServeHTTP_matched L s req hm
  refine ⟨hd, ?_, ?_, ?_, authenticateUser_eq L s, ?_, Header.get_set _ _ _, ?_⟩
  · rintro (h | h) <;> simp [h, routeHandler]
  · intro h
    simp [h, routeHandler]
  · intro h
    simp [h, routeHandler]
  · rw [hd, setRequestID_run]
  · rw [hd, setRequestID_run, logRequest_log]
    exact ⟨_, _, rfl, tagged_request_id (requestWithMatch req req.Path) (w.uuid w.drawn),
      tagged_request_id (requestWithMatch req req.Path) (w.uuid w.drawn), rfl⟩

/-- C9 at `GET /private/profile`: the run starts the log with the started
event of the tagged request, whose `request_id` is the identifier drawn. -/
theorem middlewares_run_in_order_witness :
    ((sampleRequest "GET" "/private/profile" []).Method = "GET" ∧
      (sampleRequest "GET" "/private/profile" []).Path = "/private/profile") ∧
    ((sampleServer.ServeHTTP sampleLib (sampleRequest "GET" "/private/profile" [])).run
        sampleWorld).2.header.Get "X-Request-ID" = "id-0" ∧
    (((sampleServer.ServeHTTP sampleLib (sampleRequest "GET" "/private/profile" [])).run
        sampleWorld).2.log.map fun e => (e.request_id, e.format)) =
      [(some (CtxVal.str "id-0"), "started %s %s"),
       (some (CtxVal.str "id-0"), "completed with %d %s in %v")] := by
  have h := middlewares_run_in_order sampleLib sampleServer
    (sampleRequest "GET" "/private/profile" []) sampleWorld
    (Or.inr ⟨Or.inl rfl, Or.inl rfl⟩)
  refine ⟨⟨rfl, rfl⟩, ?_, ?_⟩
  · rw [h.2.2.2.2.2.1]
    decide
  · rw [h.2.2.2.2.2.1]
    decide

end ApiGateway
